import Mathlib

set_option maxRecDepth 100000

/-!
Shallow embedding of the conversation-memory engine of the Local-LLM-Chat-MVP
repository (the context manager documented in `DEVREADME.md`, sections
"Multi-Layered Memory Structure" through "Intelligent Condensation").

Pure functions of the Python backend become Lean functions; the per-session
mutable `ContextManager` object becomes an explicit state record threaded
through the operations.  Wall-clock time (`time.time()`) is passed in
explicitly as a rational `now`; Python floats are modelled with `ℚ`.
-/

/-- A single conversation turn (`Message` dataclass): role, content and the
creation timestamp (seconds, modelled as `Nat`). -/
structure Message where
  role : String
  content : String
  timestamp : Nat
deriving DecidableEq

/-- An archived fragment of condensed conversation (`ContextChunk` dataclass):
content text, classified type, the messages it was built from, and a
timestamp used for eviction and time decay. -/
structure ContextChunk where
  content : String
  chunk_type : String
  source_messages : List Message
  timestamp : Nat
deriving DecidableEq

/-- A role/content pair as sent to the LLM (`{"role": ..., "content": ...}`). -/
structure ChatMessage where
  role : String
  content : String
deriving DecidableEq

/-- Per-session structured memory (`SessionMemory` dataclass,
`backend/context_manager.py:53-80`). Dictionaries are modelled as
association lists. -/
structure SessionMemory where
  profile : List (String × String)
  constraints_decisions : List String
  canonical_facts : List (String × String)
  entities : List (String × String)
  current_topic : String
  working_context : String
  rolling_summary : String
  summary_version : Nat
deriving DecidableEq

/-- The per-session context manager state: live messages, chunk archive,
structured memory, configuration and the condensation counter. -/
structure ContextManager where
  messages : List Message
  context_chunks : List ContextChunk
  session_memory : SessionMemory
  recent_window_size : Nat
  max_tokens : Nat
  condensation_count : Nat
deriving DecidableEq

/-- The empty session memory. -/
def SessionMemory.empty : SessionMemory :=
  { profile := [], constraints_decisions := [], canonical_facts := [],
    entities := [], current_topic := "", working_context := "",
    rolling_summary := "", summary_version := 0 }

/-- A freshly created session (lazy creation on first message): empty state
with the default configuration (recent window 8, 32000 max tokens). -/
def initial_manager : ContextManager :=
  { messages := [], context_chunks := [], session_memory := SessionMemory.empty,
    recent_window_size := 8, max_tokens := 32000, condensation_count := 0 }

/-- `add_message`: append a message to the live tail.  The timestamp models
`time.time()` at the moment of the call. -/
def add_message (st : ContextManager) (role content : String) (ts : Nat) :
    ContextManager :=
  { st with messages := st.messages ++ [⟨role, content, ts⟩] }

/-- `estimate_tokens(text) = ceil(len(text) / 4)`. -/
def estimate_tokens (text : String) : Nat := (text.length + 3) / 4

/-- Python's negative-start slice `l[-w:]` (the `w` most recent entries;
the whole list when `w = 0` because `l[-0:] = l[0:] = l`). -/
def py_slice_from_neg (l : List Message) (w : Nat) : List Message :=
  if w = 0 then l else l.drop (l.length - w)

/-- Python's negative-stop slice `l[:-w]` (everything but the `w` most
recent entries; empty when `w = 0` because `l[:-0] = l[:0] = []`). -/
def py_slice_to_neg (l : List Message) (w : Nat) : List Message :=
  if w = 0 then [] else l.take (l.length - w)

/-- ASCII lower-casing of one character (`str.lower()` on the ASCII chat
data; written out so that it evaluates inside the kernel). -/
def lowerChar (c : Char) : Char :=
  if 'A' ≤ c && c ≤ 'Z' then Char.ofNat (c.toNat + 32) else c

/-- ASCII lower-casing of a string (`str.lower()`). -/
def lowerStr (s : String) : String := String.mk (s.toList.map lowerChar)

/-- `\w` of the word-boundary regex, restricted to ASCII as in the chat data:
letters, digits and underscore. -/
def isWordChar (c : Char) : Bool := c.isAlphanum || c = '_'

/-- Accumulating scanner behind `words`: splits a character list into maximal
runs of word characters (`re.findall(r'\w+', s)`). -/
def wordsAux : List Char → List Char → List String
  | [], [] => []
  | [], acc => [String.mk acc.reverse]
  | c :: cs, acc =>
    if isWordChar c then wordsAux cs (c :: acc)
    else if acc.isEmpty then wordsAux cs []
    else String.mk acc.reverse :: wordsAux cs []

/-- `set(re.findall(r'\w+', s.lower()))`: the lowercase word set of a text. -/
def words (s : String) : Finset String := (wordsAux (lowerStr s).toList []).toFinset

/-- Rendering of one message inside a chunk: `f"{role}: {content}"`. -/
def render (m : Message) : String := m.role ++ ": " ++ m.content

/-- `_messages_related`. Modelled from the spec: the heuristic itself is not
shown in `DEVREADME.md`; §4.2 asks for any symmetric, order-respecting
lexical-adjacency heuristic, so we use non-empty lowercase word overlap. -/
def _messages_related (a b : Message) : Bool :=
  decide ((words a.content ∩ words b.content).Nonempty)

/-- Does the first character list start with the second one? -/
def charsStartWith : List Char → List Char → Bool
  | _, [] => true
  | [], _ :: _ => false
  | c :: cs, p :: ps => c = p && charsStartWith cs ps

/-- Substring test on character lists: does `pat` occur in the first list? -/
def charsContain : List Char → List Char → Bool
  | [], pat => charsStartWith [] pat
  | c :: cs, pat => charsStartWith (c :: cs) pat || charsContain cs pat

/-- Substring containment `pat in s` (Python `in` on strings). -/
def strContains (s pat : String) : Bool := charsContain s.toList pat.toList

/-- `_classify_chunk_type`: keyword-family scan, first matching family wins
(decision, then constraint, then fact, otherwise exchange), per the
"Chunk Classification System" table in `DEVREADME.md`. -/
def _classify_chunk_type (content : String) : String :=
  let c := lowerStr content
  if ["decided", "let\x27s use", "we\x27ll go with", "agreed"].any
      (fun k => strContains c k) then "decision"
  else if ["must", "should not", "requirement", "rule"].any
      (fun k => strContains c k) then "constraint"
  else if ["is defined as", "equals", "specification"].any
      (fun k => strContains c k) then "fact"
  else "exchange"

/-- Fold the rendered messages onto an existing chunk text, one `"\n"`-joined
rendering per message (`chunk_content += f"\n{msg.role}: {msg.content}"`). -/
def contentOfFrom (s : String) (ms : List Message) : String :=
  ms.foldl (fun acc m => acc ++ "\n" ++ render m) s

/-- The look-ahead loop of `create_context_chunks`
(`backend/context_manager.py:179-217`): starting from the anchor's rendered
text, absorb up to `k` following messages while each is related to the anchor
and the text accumulated so far is under 400 characters.  Returns the
absorbed messages, the final chunk text and the unconsumed remainder. -/
def absorbFollowing (anchor : Message) : String → Nat → List Message →
    List Message × String × List Message
  | content, _, [] => ([], content, [])
  | content, 0, rest => ([], content, rest)
  | content, k + 1, m :: rest =>
    if _messages_related anchor m && decide (content.length < 400) then
      let r := absorbFollowing anchor (content ++ "\n" ++ render m) k rest
      (m :: r.1, r.2.1, r.2.2)
    else ([], content, m :: rest)

/-- The scan loop of `create_context_chunks`, driven by a fuel argument so
that the recursion is structural (each step consumes at least the anchor, so
any fuel of at least the list length is enough; the wrapper passes exactly
the list length). -/
def chunkScan : Nat → List Message → List ContextChunk
  | _, [] => []
  | 0, _ :: _ => []
  | fuel + 1, m :: rest =>
    let r := absorbFollowing m (render m) 2 rest
    { content := r.2.1, chunk_type := _classify_chunk_type r.2.1,
      source_messages := m :: r.1, timestamp := m.timestamp }
      :: chunkScan fuel r.2.2

/-- `create_context_chunks`: scan left to right, one chunk per anchor message
with up to two absorbed followers; each finished chunk is classified by its
text.  The chunk timestamp is modelled from the spec as the anchor message's
timestamp (the creation wall-clock is not shown in `DEVREADME.md`; §3 only
requires a timestamp usable for oldest-first eviction and time decay). -/
def create_context_chunks (ms : List Message) : List ContextChunk :=
  chunkScan ms.length ms

/-- The relevance score of `semantic_retrieval`
(`backend/context_manager.py:262-298`): Jaccard similarity of the lowercase
word sets (`overlap / max(union, 1)`), multiplied by the chunk-type boost
(`{'decision': 1.5, 'constraint': 1.4, 'fact': 1.3, 'exchange': 1.0}` with
default `1.0`) and the time-decay factor
`max(0.5, 1.0 - age_hours / 48)` with `age_hours = (now - timestamp) / 3600`. -/
def final_score (now : ℚ) (query : String) (c : ContextChunk) : ℚ :=
  let query_words := words query
  let chunk_words := words c.content
  let overlap := (query_words ∩ chunk_words).card
  let union := (query_words ∪ chunk_words).card
  let jaccard_similarity : ℚ := (overlap : ℚ) / ((max union 1 : ℕ) : ℚ)
  let type_boost : ℚ :=
    if c.chunk_type = "decision" then 3 / 2
    else if c.chunk_type = "constraint" then 7 / 5
    else if c.chunk_type = "fact" then 13 / 10
    else 1
  let age_hours : ℚ := (now - (c.timestamp : ℚ)) / 3600
  let time_factor : ℚ := max (1 / 2) (1 - age_hours / 48)
  jaccard_similarity * type_boost * time_factor

/-- Ordering of scored chunks: strictly larger score first, ties broken by
recency (larger timestamp first).  Modelled from the spec: the sort of
`semantic_retrieval` is not shown in `DEVREADME.md`; §4.3 specifies
"sort descending by final score; ties broken by recency (newer first)". -/
def retr_order (a b : ℚ × ContextChunk) : Prop :=
  b.1 < a.1 ∨ (a.1 = b.1 ∧ b.2.timestamp ≤ a.2.timestamp)

instance : DecidableRel retr_order := fun a b => by
  unfold retr_order; infer_instance

instance : IsTotal (ℚ × ContextChunk) retr_order where
  total a b := by
    unfold retr_order
    rcases lt_trichotomy a.1 b.1 with h | h | h
    · exact Or.inr (Or.inl h)
    · rcases le_total b.2.timestamp a.2.timestamp with h2 | h2
      · exact Or.inl (Or.inr ⟨h, h2⟩)
      · exact Or.inr (Or.inr ⟨h.symm, h2⟩)
    · exact Or.inl (Or.inl h)

instance : IsTrans (ℚ × ContextChunk) retr_order where
  trans a b c hab hbc := by
    unfold retr_order at *
    rcases hab with h1 | ⟨h1, t1⟩
    · rcases hbc with h2 | ⟨h2, _⟩
      · exact Or.inl (h2.trans h1)
      · exact Or.inl (h2 ▸ h1)
    · rcases hbc with h2 | ⟨h2, t2⟩
      · exact Or.inl (h1 ▸ h2)
      · exact Or.inr ⟨h1.trans h2, t2.trans t1⟩

/-- The scored-and-filtered chunk list of `semantic_retrieval`.  Modelled
from the spec for the filter: §7(d) keeps only chunks whose score is above
zero, so that an all-zero scoring yields an empty retrieval result. -/
def scored_chunks (now : ℚ) (query : String) (chunks : List ContextChunk) :
    List (ℚ × ContextChunk) :=
  (chunks.map fun c => (final_score now query c, c)).filter fun p =>
    decide (0 < p.1)

/-- `semantic_retrieval(query, max_chunks)`: score every archived chunk,
keep positive scores, sort best-first (ties newer-first) and return the top
`max_chunks` chunks. -/
def semantic_retrieval (now : ℚ) (query : String)
    (chunks : List ContextChunk) (max_chunks : Nat) : List ContextChunk :=
  ((List.insertionSort retr_order (scored_chunks now query chunks)).take
    max_chunks).map fun p => p.2

/-- The system message built from `constraints_decisions`
(`build_context_for_llm`, step 1). -/
def constraints_block (st : ContextManager) : ChatMessage :=
  ⟨"system", "Context Constraints & Decisions:\n" ++
    String.intercalate "\n" st.session_memory.constraints_decisions⟩

/-- The system message built from the rolling summary
(`build_context_for_llm`, step 2). -/
def summary_block (st : ContextManager) : ChatMessage :=
  ⟨"system", "Previous conversation summary: " ++
    st.session_memory.rolling_summary⟩

/-- The system message carrying the retrieved chunks
(`build_context_for_llm`, step 3). -/
def retrieved_block (now : ℚ) (st : ContextManager) (q : String) :
    ChatMessage :=
  ⟨"system", "Relevant previous context:\n" ++
    String.intercalate "\n\n"
      ((semantic_retrieval now q st.context_chunks 3).map fun c =>
        "[Relevant context from " ++ c.chunk_type ++ "]: " ++ c.content)⟩

/-- `build_context_for_llm(current_query)`
(`backend/context_manager.py:442-484`): constraints system message if any,
rolling-summary system message if non-empty, retrieved-context system message
if the query is non-empty and retrieval found chunks, then the last
`recent_window_size` live messages as individual role/content pairs. -/
def build_context_for_llm (now : ℚ) (st : ContextManager)
    (current_query : String) : List ChatMessage :=
  (if st.session_memory.constraints_decisions = [] then []
    else [constraints_block st]) ++
  (if st.session_memory.rolling_summary = "" then []
    else [summary_block st]) ++
  (if current_query = "" then []
    else if semantic_retrieval now current_query st.context_chunks 3 = []
      then [] else [retrieved_block now st current_query]) ++
  (py_slice_from_neg st.messages st.recent_window_size).map fun m =>
    ⟨m.role, m.content⟩

/-- Estimated token count of the recent message window. Modelled from the
spec: `estimate_context_tokens` is referenced but not shown in
`DEVREADME.md`; §4.4 counts the recent messages against the budget. -/
def recent_window_tokens (st : ContextManager) : Nat :=
  ((py_slice_from_neg st.messages st.recent_window_size).map fun m =>
    estimate_tokens m.content).sum

/-- Estimated total context tokens. Modelled from the spec: recent messages
plus rolling summary plus archived-chunk overhead (`estimate_context_tokens`
is not shown in `DEVREADME.md`). -/
def estimate_context_total (st : ContextManager) : Nat :=
  recent_window_tokens st + estimate_tokens st.session_memory.rolling_summary +
    (st.context_chunks.map fun c => estimate_tokens c.content).sum

/-- `needs_condensation()`.  Modelled from the spec: the body is not shown in
`DEVREADME.md` (only the trigger table at its lines 844-847); §4.4 gives the
three triggers — total tokens at ≥ 90% of the max, more than 50 messages, or
the recent window above 70% of the budget — and the guard that below
`recent_window_size + 1` total messages condensation never fires. -/
def needs_condensation (st : ContextManager) : Bool :=
  if st.messages.length < st.recent_window_size + 1 then false
  else
    decide (9 * st.max_tokens ≤ 10 * estimate_context_total st) ||
    decide (50 < st.messages.length) ||
    decide (7 * st.max_tokens < 10 * recent_window_tokens st)

/-- The external LLM completion function (§6): takes an ordered sequence of
role/content pairs and either returns text or fails (`none` models a raised
exception, a timeout or a non-2xx response). -/
def LlmFn : Type := List ChatMessage → Option String

/-- The fallback summary used when summarization fails.  Modelled from the
spec (§4.4): a non-empty string stating that context was preserved but not
semantically compressed. -/
def fallback_summary : String :=
  "Context preserved but not semantically compressed due to a summarization failure."

/-- One-text rendering of a message list for LLM prompts. -/
def render_messages (ms : List Message) : String :=
  String.intercalate "\n" (ms.map render)

/-- `_create_rolling_summary`.  Modelled from the spec: the body is not shown
in `DEVREADME.md`; §4.4 step 2 calls the completion function with the
existing rolling summary plus the messages to summarize, and the failure
semantics replace a failed or unusable result with `fallback_summary`.
Returns the new summary together with a failure flag for the report. -/
def _create_rolling_summary (llm : LlmFn) (prev : String)
    (ms : List Message) : String × Bool :=
  match llm [⟨"system", "Update the rolling summary into a single paragraph."⟩,
             ⟨"user", prev ++ "\n" ++ render_messages ms⟩] with
  | none => (fallback_summary, true)
  | some s => if s.trim = "" then (fallback_summary, true) else (s, false)

/-- Insert-or-replace into an association list (last write wins per key). -/
def upsert_fact (facts : List (String × String)) (key value : String) :
    List (String × String) :=
  (facts.filter fun p => p.1 ≠ key) ++ [(key, value)]

/-- `_extract_constraints_decisions`.  Modelled from the spec: the body is
not shown in `DEVREADME.md`; §4.4 step 3 asks the completion function for new
decisions/constraints/facts, appends distinct new items to
`constraints_decisions` and upserts `key: value` lines into
`canonical_facts`; a failed call changes nothing (failures are isolated). -/
def _extract_constraints_decisions (llm : LlmFn) (ms : List Message)
    (mem : SessionMemory) : SessionMemory :=
  match llm [⟨"system", "List new decisions, constraints and facts."⟩,
             ⟨"user", render_messages ms⟩] with
  | none => mem
  | some s =>
    let items := (s.splitOn "\n").filter fun x => x.trim ≠ ""
    { mem with
      constraints_decisions := items.foldl
        (fun acc x => if x ∈ acc then acc else acc ++ [x])
        mem.constraints_decisions,
      canonical_facts := items.foldl
        (fun acc x =>
          match x.splitOn ": " with
          | k :: v :: rest => upsert_fact acc k (String.intercalate ": " (v :: rest))
          | _ => acc)
        mem.canonical_facts }

/-- Chunk-archive eviction (`condense_context`, strategy 5): when more than
20 chunks are stored, keep only the 20 most recent by timestamp. -/
def evict_chunks (l : List ContextChunk) : List ContextChunk :=
  if 20 < l.length then
    (List.insertionSort (fun a b => b.timestamp ≤ a.timestamp) l).take 20
  else l

/-- The report returned by `condense_context`.  The Python code returns a
dict; absent keys of the early-return dict are modelled as zero/false. -/
structure CondenseReport where
  action : String
  tokens_before : Nat
  tokens_after : Nat
  chunks_created : Nat
  llm_failed : Bool
deriving DecidableEq

/-- `condense_context(llm_function)` (`backend/context_manager.py:300-349`):
early return when `needs_condensation()` is false; otherwise summarize
`messages[:-recent_window_size]` (falling back on LLM failure), extract
constraints/decisions, chunk the summarized messages into the archive, trim
`messages` to the recent window, evict old chunks beyond 20, and increment
the condensation counter (§4.4 step 7). -/
def condense_context (llm : LlmFn) (st : ContextManager) :
    ContextManager × CondenseReport :=
  if needs_condensation st then
    let messages_to_summarize := py_slice_to_neg st.messages st.recent_window_size
    let original_tokens := estimate_context_total st
    let summary := _create_rolling_summary llm
      st.session_memory.rolling_summary messages_to_summarize
    let mem1 := { st.session_memory with
      rolling_summary := summary.1,
      summary_version := st.session_memory.summary_version + 1 }
    let mem2 := _extract_constraints_decisions llm messages_to_summarize mem1
    let new_chunks := create_context_chunks messages_to_summarize
    let st' := { st with
      messages := py_slice_from_neg st.messages st.recent_window_size,
      context_chunks := evict_chunks (st.context_chunks ++ new_chunks),
      session_memory := mem2,
      condensation_count := st.condensation_count + 1 }
    (st', { action := "condensed", tokens_before := original_tokens,
            tokens_after := estimate_context_total st',
            chunks_created := new_chunks.length,
            llm_failed := summary.2 })
  else
    (st, { action := "no_condensation_needed", tokens_before := 0,
           tokens_after := 0, chunks_created := 0, llm_failed := false })

/-- An LLM completion function that always fails (Scenario C of §8). -/
def failing_llm : LlmFn := fun _ => none

/-- A session that has received 51 empty messages with distinct timestamps:
over the 50-message trigger, so condensation fires. -/
def st51 : ContextManager :=
  (List.range 51).foldl (fun st i => add_message st "user" "" i) initial_manager

/-- A session with 10 short messages: above the recent window of 8 but under
every condensation trigger. -/
def st10 : ContextManager :=
  (List.range 10).foldl (fun st i => add_message st "user" "hello" i)
    initial_manager

/-- The first message ever added to `st51` (condensed over and then evicted
together with its chunk). -/
def first_message : Message := ⟨"user", "", 0⟩

/-- Best-first order on returned chunks: strictly higher score first, ties
broken by recency (newer, i.e. larger timestamp, first). -/
def best_first (now : ℚ) (q : String) (c1 c2 : ContextChunk) : Prop :=
  final_score now q c2 < final_score now q c1 ∨
    (final_score now q c1 = final_score now q c2 ∧ c2.timestamp ≤ c1.timestamp)

/-- A session that is over the token budget (3 one-token messages against a
2-token maximum) while holding fewer than `recent_window_size + 1` messages. -/
def small_over_budget : ContextManager :=
  { initial_manager with
    messages := (List.range 3).map fun i => ⟨"user", "aaaa", i⟩,
    max_tokens := 2 }

/-- Spec-side Jaccard similarity (§4.3): `|intersection| / |union|`, defined
as 0 when the union is empty.  Written from the spec's words for comparison
with the code-derived `final_score`. -/
def spec_jaccard (q t : String) : ℚ :=
  if (words q ∪ words t).card = 0 then 0
  else ((words q ∩ words t).card : ℚ) / ((words q ∪ words t).card : ℚ)

/-- Spec-side type boost table (§4.3): decision 1.5, constraint 1.4,
fact 1.3, exchange 1.0. -/
def spec_type_boost : String → ℚ
  | "decision" => 3 / 2
  | "constraint" => 7 / 5
  | "fact" => 13 / 10
  | _ => 1

/-- Spec-side time decay (§4.3): `max(0.5, 1.0 - age_hours / 48)` with
`age_hours` the wall-clock age of the chunk at query time. -/
def spec_time_decay (now : ℚ) (ts : Nat) : ℚ :=
  max (1 / 2) (1 - ((now - (ts : ℚ)) / 3600) / 48)

/-- Spec-side final retrieval score (§4.3): Jaccard × type boost × decay. -/
def spec_final_score (now : ℚ) (q : String) (c : ContextChunk) : ℚ :=
  spec_jaccard q c.content * spec_type_boost c.chunk_type *
    spec_time_decay now c.timestamp

/-- A concrete decision-typed chunk used to witness C6. -/
def chunk_w : ContextChunk :=
  { content := "alpha", chunk_type := "decision", source_messages := [],
    timestamp := 0 }

/-- A 300-character message text sharing the word "topic" with its reply. -/
def long_a : String := "topic " ++ String.mk (List.replicate 294 'a')

/-- A 300-character related reply text. -/
def long_b : String := "topic " ++ String.mk (List.replicate 294 'b')

/-- Two related long messages: the anchor's text is under 400 characters, so
the follower is absorbed, pushing the accumulated chunk text past 400. -/
def chunk_cex_input : List Message :=
  [⟨"user", long_a, 0⟩, ⟨"assistant", long_b, 1⟩]

/-- The single chunk produced from a one-message list. -/
def chunk_single : ContextChunk :=
  { content := "user: ", chunk_type := "exchange",
    source_messages := [first_message], timestamp := 0 }

/-- A session with 5 short live messages and empty memory. -/
def st5 : ContextManager :=
  { initial_manager with
    messages := (List.range 5).map fun i => ⟨"user", "hi", i⟩ }

/-! ## Helper lemmas -/

theorem absorbFollowing_rest_length (anchor : Message) :
    ∀ (l : List Message) (content : String) (k : Nat),
      (absorbFollowing anchor content k l).2.2.length ≤ l.length := by
  intro l
  induction l with
  | nil => intro content k; cases k <;> simp [absorbFollowing]
  | cons m rest ih =>
    intro content k
    cases k with
    | zero => simp [absorbFollowing]
    | succ k =>
      simp only [absorbFollowing]
      split
      · exact Nat.le_succ_of_le (ih _ k)
      · simp


theorem absorbFollowing_append (anchor : Message) :
    ∀ (l : List Message) (content : String) (k : Nat),
      (absorbFollowing anchor content k l).1 ++
        (absorbFollowing anchor content k l).2.2 = l := by
  intro l
  induction l with
  | nil => intro content k; cases k <;> simp [absorbFollowing]
  | cons m rest ih =>
    intro content k
    cases k with
    | zero => simp [absorbFollowing]
    | succ k =>
      simp only [absorbFollowing]
      split
      · simpa using ih _ k
      · simp

theorem absorbFollowing_absorbed_length (anchor : Message) :
    ∀ (l : List Message) (content : String) (k : Nat),
      (absorbFollowing anchor content k l).1.length ≤ k := by
  intro l
  induction l with
  | nil => intro content k; cases k <;> simp [absorbFollowing]
  | cons m rest ih =>
    intro content k
    cases k with
    | zero => simp [absorbFollowing]
    | succ k =>
      simp only [absorbFollowing]
      split
      · simpa using ih _ k
      · simp

theorem contentOfFrom_cons (s : String) (m : Message) (ms : List Message) :
    contentOfFrom s (m :: ms) = contentOfFrom (s ++ "\n" ++ render m) ms := rfl

theorem absorbFollowing_content (anchor : Message) :
    ∀ (l : List Message) (content : String) (k : Nat),
      (absorbFollowing anchor content k l).2.1 =
        contentOfFrom content (absorbFollowing anchor content k l).1 := by
  intro l
  induction l with
  | nil => intro content k; cases k <;> simp [absorbFollowing, contentOfFrom]
  | cons m rest ih =>
    intro content k
    cases k with
    | zero => simp [absorbFollowing, contentOfFrom]
    | succ k =>
      simp only [absorbFollowing]
      split
      · simpa [contentOfFrom_cons] using ih _ k
      · simp [contentOfFrom]

theorem absorbFollowing_invariant (anchor : Message) :
    ∀ (l : List Message) (content : String) (k : Nat)
      (pre : List Message) (m' : Message) (suf : List Message),
      (absorbFollowing anchor content k l).1 = pre ++ m' :: suf →
      _messages_related anchor m' = true ∧
        (contentOfFrom content pre).length < 400 := by
  intro l
  induction l with
  | nil =>
    intro content k pre m' suf h
    exfalso
    cases k <;> simp [absorbFollowing] at h
  | cons m rest ih =>
    intro content k pre m' suf h
    cases k with
    | zero => exfalso; simp [absorbFollowing] at h
    | succ k =>
      by_cases hc : (_messages_related anchor m && decide (content.length < 400)) = true
      · rw [absorbFollowing, if_pos hc] at h
        rcases Bool.and_eq_true_iff.mp hc with ⟨hrel, hlen⟩
        cases pre with
        | nil =>
          simp only [List.nil_append, List.cons.injEq] at h
          exact ⟨h.1 ▸ hrel, by simpa [contentOfFrom] using of_decide_eq_true hlen⟩
        | cons p pre' =>
          simp only [List.cons_append, List.cons.injEq] at h
          have step := ih (content ++ "\n" ++ render m) k pre' m' suf h.2
          refine ⟨step.1, ?_⟩
          rw [contentOfFrom_cons, ← h.1]
          exact step.2
      · rw [absorbFollowing, if_neg hc] at h
        exact absurd h (by simp)

theorem chunkScan_flatten :
    ∀ (fuel : Nat) (ms : List Message), ms.length ≤ fuel →
      ((chunkScan fuel ms).map (fun c => c.source_messages)).flatten = ms := by
  intro fuel
  induction fuel with
  | zero =>
    intro ms h
    have : ms = [] := List.length_eq_zero.mp (Nat.le_zero.mp h)
    subst this
    simp [chunkScan]
  | succ fuel ih =>
    intro ms h
    cases ms with
    | nil => simp [chunkScan]
    | cons m rest =>
      simp only [chunkScan, List.map_cons, List.flatten_cons]
      have hrest : (absorbFollowing m (render m) 2 rest).2.2.length ≤ fuel := by
        have h1 := absorbFollowing_rest_length m rest (render m) 2
        have h2 : rest.length ≤ fuel := by simpa using h
        omega
      rw [ih _ hrest]
      simp only [List.cons_append]
      rw [absorbFollowing_append]

theorem chunkScan_shape :
    ∀ (fuel : Nat) (ms : List Message), ms.length ≤ fuel →
      ∀ c ∈ chunkScan fuel ms,
        ∃ a tl, c.source_messages = a :: tl ∧ tl.length ≤ 2 ∧
          c.content = contentOfFrom (render a) tl ∧
          c.chunk_type = _classify_chunk_type c.content ∧
          c.timestamp = a.timestamp ∧
          ∀ pre m' suf, tl = pre ++ m' :: suf →
            _messages_related a m' = true ∧
              (contentOfFrom (render a) pre).length < 400 := by
  intro fuel
  induction fuel with
  | zero =>
    intro ms h c hc
    have : ms = [] := List.length_eq_zero.mp (Nat.le_zero.mp h)
    subst this
    simp [chunkScan] at hc
  | succ fuel ih =>
    intro ms h c hc
    cases ms with
    | nil => simp [chunkScan] at hc
    | cons m rest =>
      simp only [chunkScan, List.mem_cons] at hc
      rcases hc with hc | hc
      · subst hc
        refine ⟨m, (absorbFollowing m (render m) 2 rest).1, rfl, ?_, ?_, rfl, rfl, ?_⟩
        · exact absorbFollowing_absorbed_length m rest (render m) 2
        · exact absorbFollowing_content m rest (render m) 2
        · intro pre m' suf hsplit
          exact absorbFollowing_invariant m rest (render m) 2 pre m' suf hsplit
      · have hrest : (absorbFollowing m (render m) 2 rest).2.2.length ≤ fuel := by
          have h1 := absorbFollowing_rest_length m rest (render m) 2
          have h2 : rest.length ≤ fuel := by simpa using h
          omega
        exact ih _ hrest c hc

theorem create_context_chunks_flatten (ms : List Message) :
    ((create_context_chunks ms).map (fun c => c.source_messages)).flatten = ms :=
  chunkScan_flatten ms.length ms le_rfl

theorem create_context_chunks_shape (ms : List Message) :
    ∀ c ∈ create_context_chunks ms,
      ∃ a tl, c.source_messages = a :: tl ∧ tl.length ≤ 2 ∧
        c.content = contentOfFrom (render a) tl ∧
        c.chunk_type = _classify_chunk_type c.content ∧
        c.timestamp = a.timestamp ∧
        ∀ pre m' suf, tl = pre ++ m' :: suf →
          _messages_related a m' = true ∧
            (contentOfFrom (render a) pre).length < 400 :=
  chunkScan_shape ms.length ms le_rfl

theorem py_slice_from_neg_of_le (l : List Message) (w : Nat)
    (h : l.length ≤ w) : py_slice_from_neg l w = l := by
  unfold py_slice_from_neg
  split
  · rfl
  · have : l.length - w = 0 := Nat.sub_eq_zero_of_le h
    rw [this, List.drop_zero]

theorem py_slice_from_neg_length_le (l : List Message) (w : Nat)
    (h : 0 < w) : (py_slice_from_neg l w).length ≤ w := by
  unfold py_slice_from_neg
  rw [if_neg (Nat.pos_iff_ne_zero.mp h)]
  rw [List.length_drop]
  omega

theorem py_slice_from_neg_length_eq (l : List Message) (w : Nat)
    (h0 : 0 < w) (h : w ≤ l.length) : (py_slice_from_neg l w).length = w := by
  unfold py_slice_from_neg
  rw [if_neg (Nat.pos_iff_ne_zero.mp h0)]
  rw [List.length_drop]
  omega

theorem scored_chunks_fst (now : ℚ) (q : String) (chunks : List ContextChunk) :
    ∀ p ∈ scored_chunks now q chunks, p.1 = final_score now q p.2 := by
  intro p hp
  unfold scored_chunks at hp
  rcases List.mem_map.mp (List.mem_of_mem_filter hp) with ⟨c, _, rfl⟩
  rfl

theorem semantic_retrieval_length_le (now : ℚ) (q : String)
    (chunks : List ContextChunk) (k : Nat) :
    (semantic_retrieval now q chunks k).length ≤ k := by
  unfold semantic_retrieval
  rw [List.length_map, List.length_take]
  exact Nat.min_le_left _ _

theorem semantic_retrieval_eq_nil_iff (now : ℚ) (q : String)
    (chunks : List ContextChunk) (k : Nat) (hk : k ≠ 0) :
    semantic_retrieval now q chunks k = [] ↔
      ∀ c ∈ chunks, ¬ 0 < final_score now q c := by
  unfold semantic_retrieval
  rw [List.map_eq_nil_iff, List.take_eq_nil_iff]
  constructor
  · intro h c hc hpos
    rcases h with h | h
    · exact hk h
    · have hperm := (List.perm_insertionSort retr_order
        (scored_chunks now q chunks)).symm
      rw [h] at hperm
      have : scored_chunks now q chunks = [] := hperm.eq_nil
      have hmem : (final_score now q c, c) ∈ scored_chunks now q chunks := by
        unfold scored_chunks
        refine List.mem_filter.mpr ⟨List.mem_map_of_mem _ hc, by simpa using hpos⟩
      rw [this] at hmem
      exact absurd hmem (List.not_mem_nil _)
  · intro h
    right
    have hnil : scored_chunks now q chunks = [] := by
      unfold scored_chunks
      rw [List.filter_eq_nil_iff]
      intro p hp
      rcases List.mem_map.mp hp with ⟨c, hc, rfl⟩
      simpa using h c hc
    rw [hnil]
    rfl


theorem semantic_retrieval_sorted (now : ℚ) (q : String)
    (chunks : List ContextChunk) (k : Nat) :
    List.Pairwise (best_first now q) (semantic_retrieval now q chunks k) := by
  unfold semantic_retrieval
  rw [List.pairwise_map]
  have hsorted : List.Pairwise retr_order
      (List.insertionSort retr_order (scored_chunks now q chunks)) :=
    List.sorted_insertionSort retr_order (scored_chunks now q chunks)
  have htake : List.Pairwise retr_order
      ((List.insertionSort retr_order (scored_chunks now q chunks)).take k) :=
    List.Pairwise.sublist (List.take_sublist _ _) hsorted
  refine List.Pairwise.imp_of_mem ?_ htake
  intro a b ha hb hab
  have hmem : ∀ p ∈ (List.insertionSort retr_order
      (scored_chunks now q chunks)).take k, p.1 = final_score now q p.2 := by
    intro p hp
    exact scored_chunks_fst now q chunks p
      ((List.perm_insertionSort retr_order _).subset (List.mem_of_mem_take hp))
  have ha' := hmem a ha
  have hb' := hmem b hb
  unfold retr_order at hab
  unfold best_first
  rw [ha', hb'] at hab
  exact hab

theorem final_score_empty_query (now : ℚ) (c : ContextChunk) :
    final_score now "" c = 0 := by
  have hw : words "" = ∅ := rfl
  unfold final_score
  rw [hw]
  simp

/-! ## Claim theorems -/

/-- C10: when `needs_condensation()` is false, `condense_context` returns a
report whose action is `no_condensation_needed` and leaves the whole session
state — messages, chunks, rolling summary, summary version, constraints,
facts and the condensation counter — unchanged. -/
theorem condense_context_no_op (llm : LlmFn) (st : ContextManager)
    (h : needs_condensation st = false) :
    (condense_context llm st).1 = st ∧
      (condense_context llm st).2.action = "no_condensation_needed" := by
  unfold condense_context
  rw [h]
  exact ⟨rfl, rfl⟩

theorem condense_context_no_op_witness :
    needs_condensation st10 = false ∧
      (condense_context failing_llm st10).1 = st10 ∧
      (condense_context failing_llm st10).2.action = "no_condensation_needed" :=
  ⟨by decide, condense_context_no_op failing_llm st10 (by decide)⟩

/-- C1 counterexample: a session with 10 live messages for which no trigger
fires keeps all 10 messages through a `condense_context` call, so the bound
`len(messages) ≤ recent_window_size` does not hold after every call. -/
theorem condense_context_can_leave_overfull :
    ¬ ((condense_context failing_llm st10).1.messages.length ≤
        st10.recent_window_size) := by decide

/-- C1 (amended): for a positive recent window (default 8), immediately
after any `condense_context` call in which condensation actually fired
(`needs_condensation()` true), `len(messages) ≤ recent_window_size`.  A call
made while `needs_condensation()` is false leaves the session unchanged, so
it preserves the bound only when it already held. -/
theorem condense_context_trims_when_fired (llm : LlmFn) (st : ContextManager)
    (hw : 0 < st.recent_window_size) (hn : needs_condensation st = true) :
    (condense_context llm st).1.messages.length ≤ st.recent_window_size := by
  unfold condense_context
  rw [hn]
  simpa using py_slice_from_neg_length_le st.messages st.recent_window_size hw

theorem condense_context_trims_when_fired_witness :
    0 < st51.recent_window_size ∧ needs_condensation st51 = true ∧
      (condense_context failing_llm st51).1.messages.length ≤
        st51.recent_window_size :=
  ⟨by decide, by decide,
    condense_context_trims_when_fired failing_llm st51 (by decide) (by decide)⟩


/-- C4: `needs_condensation()` is true exactly when the session holds at
least `recent_window_size + 1` messages and one of the three triggers fires
(total estimated tokens at ≥ 90% of the max, more than 50 messages, or the
recent window above 70% of the budget); below `recent_window_size + 1`
messages it is false even when nominally over budget. -/
theorem needs_condensation_spec (st : ContextManager) :
    (needs_condensation st = true ↔
      (st.recent_window_size + 1 ≤ st.messages.length ∧
        (9 * st.max_tokens ≤ 10 * estimate_context_total st ∨
          50 < st.messages.length ∨
          7 * st.max_tokens < 10 * recent_window_tokens st))) ∧
    (st.messages.length < st.recent_window_size + 1 →
      needs_condensation st = false) := by
  constructor
  · unfold needs_condensation
    split
    · simp only [Bool.false_eq_true, false_iff]
      intro hcontra
      omega
    · simp only [Bool.or_eq_true, decide_eq_true_eq]
      constructor
      · intro h
        exact ⟨by omega, or_assoc.mp h⟩
      · intro h
        exact or_assoc.mpr h.2
  · intro h
    unfold needs_condensation
    rw [if_pos h]

theorem needs_condensation_spec_witness :
    needs_condensation small_over_budget = false ∧
      9 * small_over_budget.max_tokens ≤
        10 * estimate_context_total small_over_budget :=
  ⟨(needs_condensation_spec small_over_budget).2 (by decide), by decide⟩





/-- C6: for every query and every chunk whose type is one of the four data
model values, the code's retrieval score equals the spec formula: Jaccard
similarity of the lowercase word sets (0 on an empty union) times the type
boost (1.5/1.4/1.3/1.0) times the time-decay factor
`max(0.5, 1 - age_hours/48)` at the chunk's wall-clock age. -/
theorem final_score_eq_spec (now : ℚ) (q : String) (c : ContextChunk)
    (h : c.chunk_type = "decision" ∨ c.chunk_type = "constraint" ∨
      c.chunk_type = "fact" ∨ c.chunk_type = "exchange") :
    final_score now q c = spec_final_score now q c := by
  unfold final_score spec_final_score spec_jaccard spec_time_decay
  dsimp only
  have hboost : (if c.chunk_type = "decision" then (3 : ℚ) / 2
      else if c.chunk_type = "constraint" then 7 / 5
      else if c.chunk_type = "fact" then 13 / 10 else 1) =
      spec_type_boost c.chunk_type := by
    rcases h with h | h | h | h <;> rw [h] <;> rfl
  rw [hboost]
  by_cases hu : (words q ∪ words c.content).card = 0
  · have hover : (words q ∩ words c.content).card = 0 :=
      Nat.le_zero.mp (hu ▸ Finset.card_le_card
        (Finset.inter_subset_union (s := words q) (t := words c.content)))
    rw [if_pos hu, hover]
    simp
  · rw [if_neg hu, Nat.max_eq_left (Nat.one_le_iff_ne_zero.mpr hu)]


theorem final_score_eq_spec_witness :
    (chunk_w.chunk_type = "decision" ∨ chunk_w.chunk_type = "constraint" ∨
      chunk_w.chunk_type = "fact" ∨ chunk_w.chunk_type = "exchange") ∧
    final_score 0 "alpha beta" chunk_w = spec_final_score 0 "alpha beta" chunk_w :=
  ⟨Or.inl rfl, final_score_eq_spec 0 "alpha beta" chunk_w (Or.inl rfl)⟩

/-- C7: `semantic_retrieval` returns at most `max_chunks` chunks, ordered
best-first (descending score, ties broken towards newer chunks), and returns
the empty sequence for an empty chunk archive. -/
theorem semantic_retrieval_spec (now : ℚ) (q : String)
    (chunks : List ContextChunk) (k : Nat) :
    (semantic_retrieval now q chunks k).length ≤ k ∧
    List.Pairwise (best_first now q) (semantic_retrieval now q chunks k) ∧
    semantic_retrieval now q [] k = [] :=
  ⟨semantic_retrieval_length_le now q chunks k,
   semantic_retrieval_sorted now q chunks k,
   by simp [semantic_retrieval, scored_chunks]⟩

/-- C2: when condensation fires and the summarization LLM always fails,
`condense_context` still chunks, trims and evicts — afterwards the live
messages fit in the recent window, the archive equals the old chunks plus the
newly created ones (subject to the eviction policy), and the rolling summary
is a non-empty fallback string; the failure is reported in the returned
report rather than raised (the call still returns a `condensed` report). -/
theorem condense_context_failure_path (llm : LlmFn) (st : ContextManager)
    (hf : ∀ x, llm x = none) (hw : 0 < st.recent_window_size)
    (hn : needs_condensation st = true) :
    (condense_context llm st).1.messages.length ≤ st.recent_window_size ∧
    (condense_context llm st).1.context_chunks =
      evict_chunks (st.context_chunks ++ create_context_chunks
        (py_slice_to_neg st.messages st.recent_window_size)) ∧
    (condense_context llm st).1.session_memory.rolling_summary =
      fallback_summary ∧
    fallback_summary ≠ "" ∧
    (condense_context llm st).2.action = "condensed" ∧
    (condense_context llm st).2.llm_failed = true := by
  have hsum : _create_rolling_summary llm st.session_memory.rolling_summary
      (py_slice_to_neg st.messages st.recent_window_size) =
      (fallback_summary, true) := by
    unfold _create_rolling_summary
    rw [hf]
  have hext : ∀ mem, _extract_constraints_decisions llm
      (py_slice_to_neg st.messages st.recent_window_size) mem = mem := by
    intro mem
    unfold _extract_constraints_decisions
    rw [hf]
  unfold condense_context
  rw [hn, if_pos rfl]
  dsimp only
  rw [hsum, hext]
  refine ⟨py_slice_from_neg_length_le _ _ hw, rfl, rfl, ?_, rfl, rfl⟩
  decide

theorem condense_context_failure_path_witness :
    (∀ x, failing_llm x = none) ∧ 0 < st51.recent_window_size ∧
      needs_condensation st51 = true ∧
      ((condense_context failing_llm st51).1.messages.length ≤
        st51.recent_window_size ∧
      (condense_context failing_llm st51).1.context_chunks =
        evict_chunks (st51.context_chunks ++ create_context_chunks
          (py_slice_to_neg st51.messages st51.recent_window_size)) ∧
      (condense_context failing_llm st51).1.session_memory.rolling_summary =
        fallback_summary ∧
      fallback_summary ≠ "" ∧
      (condense_context failing_llm st51).2.action = "condensed" ∧
      (condense_context failing_llm st51).2.llm_failed = true) :=
  ⟨fun _ => rfl, by decide, by decide,
    condense_context_failure_path failing_llm st51 (fun _ => rfl)
      (by decide) (by decide)⟩

/-- C3 counterexample: in the session reached by adding 51 messages and
condensing once, the first message was condensed over, but eviction (keep
the 20 most recent of the 43 new chunks) has deleted its chunk: the message
is live in `messages` of no state and appears in no surviving chunk's
`source_messages` — it was dropped from both. -/
theorem condensed_message_can_vanish :
    first_message ∈ st51.messages ∧
    first_message ∈ py_slice_to_neg st51.messages st51.recent_window_size ∧
    first_message ∉ (condense_context failing_llm st51).1.messages ∧
    ∀ c ∈ (condense_context failing_llm st51).1.context_chunks,
      first_message ∉ c.source_messages := by decide

/-- C3 (amended): when condensation fires, the chunks created by that call
partition exactly the messages condensed over (their `source_messages`
concatenate back to `messages[:-recent_window_size]`, and for duplicate-free
sessions they are pairwise disjoint, so each condensed message lands in
exactly one new chunk); the surviving live messages are exactly the recent
window and share no message with the new chunks.  Eviction may later drop
whole chunks — and with them their messages — from the archive. -/
theorem condense_context_partitions (llm : LlmFn) (st : ContextManager)
    (hn : needs_condensation st = true) (hd : st.messages.Nodup) :
    ((create_context_chunks
        (py_slice_to_neg st.messages st.recent_window_size)).map
          (fun c => c.source_messages)).flatten =
      py_slice_to_neg st.messages st.recent_window_size ∧
    (condense_context llm st).1.messages =
      py_slice_from_neg st.messages st.recent_window_size ∧
    (∀ m ∈ (condense_context llm st).1.messages,
      ∀ c ∈ create_context_chunks
        (py_slice_to_neg st.messages st.recent_window_size),
        m ∉ c.source_messages) ∧
    List.Pairwise (fun c1 c2 => c1.source_messages.Disjoint c2.source_messages)
      (create_context_chunks
        (py_slice_to_neg st.messages st.recent_window_size)) := by
  have hflat := create_context_chunks_flatten
    (py_slice_to_neg st.messages st.recent_window_size)
  have hmsg : (condense_context llm st).1.messages =
      py_slice_from_neg st.messages st.recent_window_size := by
    unfold condense_context
    rw [hn, if_pos rfl]
  refine ⟨hflat, hmsg, ?_, ?_⟩
  · intro m hm c hc hmc
    rw [hmsg] at hm
    have hm_flat : m ∈ ((create_context_chunks
        (py_slice_to_neg st.messages st.recent_window_size)).map
          (fun c => c.source_messages)).flatten :=
      List.mem_flatten.mpr ⟨c.source_messages,
        List.mem_map_of_mem _ hc, hmc⟩
    rw [hflat] at hm_flat
    unfold py_slice_to_neg at hm_flat
    unfold py_slice_from_neg at hm
    by_cases hw : st.recent_window_size = 0
    · rw [if_pos hw] at hm_flat
      exact absurd hm_flat (List.not_mem_nil m)
    · rw [if_neg hw] at hm_flat hm
      exact absurd hm
        (List.disjoint_take_drop hd le_rfl hm_flat)
  · have hnodup : (py_slice_to_neg st.messages st.recent_window_size).Nodup := by
      unfold py_slice_to_neg
      split
      · exact List.nodup_nil
      · exact hd.sublist (List.take_sublist _ _)
    rw [← hflat] at hnodup
    have := (List.nodup_flatten.mp hnodup).2
    rw [List.pairwise_map] at this
    exact this

theorem condense_context_partitions_witness :
    needs_condensation st51 = true ∧ st51.messages.Nodup ∧
      (((create_context_chunks
          (py_slice_to_neg st51.messages st51.recent_window_size)).map
            (fun c => c.source_messages)).flatten =
        py_slice_to_neg st51.messages st51.recent_window_size ∧
      (condense_context failing_llm st51).1.messages =
        py_slice_from_neg st51.messages st51.recent_window_size ∧
      (∀ m ∈ (condense_context failing_llm st51).1.messages,
        ∀ c ∈ create_context_chunks
          (py_slice_to_neg st51.messages st51.recent_window_size),
          m ∉ c.source_messages) ∧
      List.Pairwise
        (fun c1 c2 => c1.source_messages.Disjoint c2.source_messages)
        (create_context_chunks
          (py_slice_to_neg st51.messages st51.recent_window_size))) :=
  ⟨by decide, by decide,
    condense_context_partitions failing_llm st51 (by decide) (by decide)⟩




/-- C8 counterexample: on two related 300-character messages,
`create_context_chunks` produces a single chunk with both messages whose
final text is not under 400 characters — the 400 limit is only checked
before each absorption, so the accumulated text does not stay under 400. -/
theorem chunk_text_can_exceed_limit :
    ((create_context_chunks chunk_cex_input).map
      fun c => c.source_messages.length) = [2] ∧
    ¬ ∀ c ∈ create_context_chunks chunk_cex_input,
        c.content.length < 400 := by decide

/-- C8 (amended): every chunk consists of an anchor message plus at most two
absorbed following messages; a following message is absorbed only if it is
related to the anchor and the chunk text accumulated *before* absorbing it
is under 400 characters (the final text may exceed 400 by the last absorbed
message); the chunk text is exactly the rendering of the anchor followed by
the absorbed messages. -/
theorem create_context_chunks_shape_spec (ms : List Message)
    (c : ContextChunk) (hc : c ∈ create_context_chunks ms) :
    ∃ a tl, c.source_messages = a :: tl ∧ tl.length ≤ 2 ∧
      c.content = contentOfFrom (render a) tl ∧
      ∀ pre m' suf, tl = pre ++ m' :: suf →
        _messages_related a m' = true ∧
          (contentOfFrom (render a) pre).length < 400 := by
  obtain ⟨a, tl, h1, h2, h3, _, _, h6⟩ := create_context_chunks_shape ms c hc
  exact ⟨a, tl, h1, h2, h3, h6⟩


theorem create_context_chunks_shape_spec_witness :
    chunk_single ∈ create_context_chunks [first_message] ∧
    (∃ a tl, chunk_single.source_messages = a :: tl ∧ tl.length ≤ 2 ∧
      chunk_single.content = contentOfFrom (render a) tl ∧
      ∀ pre m' suf, tl = pre ++ m' :: suf →
        _messages_related a m' = true ∧
          (contentOfFrom (render a) pre).length < 400) :=
  ⟨by decide,
    create_context_chunks_shape_spec [first_message] chunk_single (by decide)⟩

theorem semantic_retrieval_nil (now : ℚ) (q : String) (k : Nat) :
    semantic_retrieval now q [] k = [] := by
  simp [semantic_retrieval, scored_chunks]

/-- C5: `build_context_for_llm` returns, in order: one system message for
`constraints_decisions` when non-empty, one system message with the rolling
summary when non-empty, one system message with the retrieved chunks exactly
when some archived chunk scores above zero for the query, then the live
message window oldest-first as individual role/content pairs; in particular
a session with only live messages (fitting the window) and empty memory
yields exactly those messages with nothing prepended. -/
theorem build_context_for_llm_spec (now : ℚ) (st : ContextManager)
    (q : String) :
    (build_context_for_llm now st q =
      (if st.session_memory.constraints_decisions = [] then []
        else [constraints_block st]) ++
      (if st.session_memory.rolling_summary = "" then []
        else [summary_block st]) ++
      (if ∃ c ∈ st.context_chunks, 0 < final_score now q c
        then [retrieved_block now st q] else []) ++
      (py_slice_from_neg st.messages st.recent_window_size).map
        (fun m => ⟨m.role, m.content⟩)) ∧
    (st.session_memory.constraints_decisions = [] →
      st.session_memory.rolling_summary = "" →
      st.context_chunks = [] →
      st.messages.length ≤ st.recent_window_size →
      build_context_for_llm now st q =
        st.messages.map fun m => ⟨m.role, m.content⟩) := by
  have h3 : (if q = "" then []
      else if semantic_retrieval now q st.context_chunks 3 = [] then []
      else [retrieved_block now st q]) =
      (if ∃ c ∈ st.context_chunks, 0 < final_score now q c
        then [retrieved_block now st q] else []) := by
    by_cases hq : q = ""
    · rw [if_pos hq, if_neg]
      rintro ⟨c, _, hpos⟩
      rw [hq, final_score_empty_query] at hpos
      exact lt_irrefl 0 hpos
    · rw [if_neg hq]
      by_cases hr : semantic_retrieval now q st.context_chunks 3 = []
      · rw [if_pos hr, if_neg]
        rintro ⟨c, hc, hpos⟩
        exact (semantic_retrieval_eq_nil_iff now q st.context_chunks 3
          (by norm_num)).mp hr c hc hpos
      · rw [if_neg hr, if_pos]
        by_contra h
        refine hr ((semantic_retrieval_eq_nil_iff now q st.context_chunks 3
          (by norm_num)).mpr ?_)
        intro c hc hpos
        exact h ⟨c, hc, hpos⟩
  constructor
  · unfold build_context_for_llm
    rw [h3]
  · intro h1 h2 hchunks h4
    unfold build_context_for_llm
    rw [if_pos h1, if_pos h2, hchunks,
      py_slice_from_neg_of_le st.messages st.recent_window_size h4]
    by_cases hq : q = ""
    · rw [if_pos hq]
      rfl
    · rw [if_neg hq, if_pos (semantic_retrieval_nil now q 3)]
      rfl


theorem build_context_for_llm_spec_witness :
    st5.session_memory.constraints_decisions = [] ∧
      st5.session_memory.rolling_summary = "" ∧
      st5.context_chunks = [] ∧ st5.messages.length ≤ st5.recent_window_size ∧
      build_context_for_llm 0 st5 "hi there" =
        st5.messages.map fun m => ⟨m.role, m.content⟩ :=
  ⟨rfl, rfl, rfl, by decide,
    (build_context_for_llm_spec 0 st5 "hi there").2 rfl rfl rfl (by decide)⟩

/-- C9: whenever more than `recent_window_size` messages are live, the
assembled context contains only the last `recent_window_size` of them (after
the system blocks); the earlier live messages are omitted even though they
are still stored in `messages`. -/
theorem build_context_caps_messages (now : ℚ) (st : ContextManager)
    (q : String) (hw : 0 < st.recent_window_size)
    (hlen : st.recent_window_size < st.messages.length) :
    (∃ blocks, build_context_for_llm now st q =
        blocks ++ (st.messages.drop
          (st.messages.length - st.recent_window_size)).map
            (fun m => ⟨m.role, m.content⟩) ∧
      ∀ x ∈ blocks, x.role = "system") ∧
    (st.messages.drop (st.messages.length - st.recent_window_size)).length =
      st.recent_window_size := by
  constructor
  · refine ⟨(if st.session_memory.constraints_decisions = [] then []
        else [constraints_block st]) ++
      (if st.session_memory.rolling_summary = "" then []
        else [summary_block st]) ++
      (if q = "" then []
        else if semantic_retrieval now q st.context_chunks 3 = [] then []
        else [retrieved_block now st q]), ?_, ?_⟩
    · unfold build_context_for_llm py_slice_from_neg
      rw [if_neg (Nat.pos_iff_ne_zero.mp hw)]
    · intro x hx
      simp only [List.mem_append] at hx
      rcases hx with (hx | hx) | hx
      · split at hx
        · exact absurd hx (List.not_mem_nil x)
        · rw [List.mem_singleton.mp hx]; rfl
      · split at hx
        · exact absurd hx (List.not_mem_nil x)
        · rw [List.mem_singleton.mp hx]; rfl
      · split at hx
        · exact absurd hx (List.not_mem_nil x)
        · split at hx
          · exact absurd hx (List.not_mem_nil x)
          · rw [List.mem_singleton.mp hx]; rfl
  · rw [List.length_drop]
    omega

theorem build_context_caps_messages_witness :
    0 < st10.recent_window_size ∧
      st10.recent_window_size < st10.messages.length ∧
      ((∃ blocks, build_context_for_llm 0 st10 "hi" =
          blocks ++ (st10.messages.drop
            (st10.messages.length - st10.recent_window_size)).map
              (fun m => ⟨m.role, m.content⟩) ∧
        ∀ x ∈ blocks, x.role = "system") ∧
      (st10.messages.drop
        (st10.messages.length - st10.recent_window_size)).length =
        st10.recent_window_size) :=
  ⟨by decide, by decide,
    build_context_caps_messages 0 st10 "hi" (by decide) (by decide)⟩
